import Mathlib

/-!
Shallow embedding of the presence-state library (Option / Und / Elastic)
and its JSON and XML codec behavior.

Modelling conventions:
  - Raw JSON input bytes are modelled as parsed JSON values.  The byte-level
    tests of the source map as follows: comparing the raw data with the null
    literal corresponds to the value being the null constructor, and the test
    that the leading byte opens an array (which in the source also requires at
    least two bytes, true of every serialized array) corresponds to the value
    being the array constructor.
  - The format-level marshal and unmarshal primitives for the element type T
    (invoked by the source through the standard library) are external
    collaborators; they are abstracted as parameters
    encT : T -> Except String JSON and decT : JSON -> Except String T.
  - The zero value of a Go type is modelled by the Inhabited default.
  - A Go method with a pointer receiver that can fail is modelled in state
    passing style: it takes the receiver value and returns the pair of the
    new receiver value and an optional error, mirroring which paths of the
    source assign through the receiver.
-/

set_option autoImplicit false

/-- Parsed JSON values, standing for the raw byte input of the unmarshalers. -/
inductive JSON where
  | null
  | bool (b : Bool)
  | num (n : Int)
  | str (s : String)
  | arr (elems : List JSON)
  | obj (fields : List (String × JSON))

/-- Byte-level test of the source comparing the input with the null literal. -/
def JSON.isNull : JSON → Bool
  | JSON.null => true
  | _ => false

/-- Byte-level test of the source that the leading byte of the input opens an
array.  Every serialized array is at least two bytes long, so the length
guard of the source is subsumed. -/
def JSON.isArr : JSON → Bool
  | JSON.arr _ => true
  | _ => false

/-- Embeds the Option struct of opt.go: a some flag plus a stored value,
which is the zero value of T when constructed as None. -/
structure Opt (T : Type) where
  some : Bool
  v : T

/-- The Go zero value of the Option struct: flag false, stored zero value. -/
instance instInhabitedOpt (T : Type) [Inhabited T] : Inhabited (Opt T) := ⟨⟨false, default⟩⟩

/-- Constructor Some of opt.go. -/
def Opt.Some {T : Type} (v : T) : Opt T := ⟨true, v⟩

/-- Constructor None of opt.go. -/
def Opt.None (T : Type) [Inhabited T] : Opt T := ⟨false, default⟩

/-- Method IsSome of opt.go. -/
def Opt.IsSome {T : Type} (o : Opt T) : Bool := o.some

/-- Method IsNone of opt.go. -/
def Opt.IsNone {T : Type} (o : Opt T) : Bool := !o.IsSome

/-- Method IsZero of opt.go. -/
def Opt.IsZero {T : Type} (o : Opt T) : Bool := o.IsNone

/-- Method Value of opt.go: returns the stored value, which is the zero value
of T when the option is a constructed None. -/
def Opt.Value {T : Type} (o : Opt T) : T := o.v

/-- Embeds the package-level helper equal of opt.go.  The dynamic interface
dispatch of the source is abstracted by three optional comparison functions:
eqT models a custom Equal method found on T, eqPtrT one found on a pointer
to T, and structEq the structural comparison by the builtin operator, absent
when T is not comparable.  A result of Option.none models the panic raised
when no comparison applies. -/
def equal {T : Type} (eqT eqPtrT structEq : Option (T → T → Bool)) (t u : T) : Option Bool :=
  match eqT with
  | Option.some f => Option.some (f t u)
  | Option.none =>
    match eqPtrT with
    | Option.some f => Option.some (f t u)
    | Option.none =>
      match structEq with
      | Option.some f => Option.some (f t u)
      | Option.none => Option.none

/-- Method Equal of opt.go: short-circuits on the some flags, then delegates
to the helper equal on the stored values. -/
def Opt.Equal {T : Type} (eqT eqPtrT structEq : Option (T → T → Bool)) (o other : Opt T) : Option Bool :=
  if !o.some || !other.some then Option.some (o.some == other.some)
  else equal eqT eqPtrT structEq o.v other.v

/-- Method MarshalJSON of opt.go: emits the null literal for None, otherwise
delegates to the marshaler of T. -/
def Opt.MarshalJSON {T : Type} (encT : T → Except String JSON) (o : Opt T) : Except String JSON :=
  if !o.some then Except.ok JSON.null
  else encT o.v

/-- Method UnmarshalJSON of opt.go applied to a fresh zero receiver, which is
how the surrounding decoders invoke it (each slice element and each local
temporary starts from the zero Option): the null literal yields None with the
value reset to zero, any other input delegates to the unmarshaler of T and
yields Some on success. -/
def Opt.decode {T : Type} [Inhabited T] (decT : JSON → Except String T) (data : JSON) : Except String (Opt T) :=
  if data.isNull then Except.ok ⟨false, default⟩
  else
    match decT data with
    | Except.error e => Except.error e
    | Except.ok t => Except.ok ⟨true, t⟩

/-- Method Map of opt.go (through MapOption): applies f to the stored value
when Some, otherwise returns a fresh None. -/
def Opt.Map {T : Type} [Inhabited T] (f : T → T) (o : Opt T) : Opt T :=
  if o.IsSome then Opt.Some (f o.Value) else Opt.None T

/-- Embeds the Und struct of und.go: an Option of an Option of T. -/
structure Und (T : Type) where
  opt : Opt (Opt T)

/-- The Go zero value of the Und struct. -/
instance instInhabitedUnd (T : Type) [Inhabited T] : Inhabited (Und T) := ⟨⟨default⟩⟩

/-- Constructor Defined of und.go. -/
def Und.Defined {T : Type} (t : T) : Und T := ⟨Opt.Some (Opt.Some t)⟩

/-- Constructor Null of und.go. -/
def Und.Null (T : Type) [Inhabited T] : Und T := ⟨Opt.Some (Opt.None T)⟩

/-- Constructor Undefined of und.go: the zero struct. -/
def Und.Undefined (T : Type) [Inhabited T] : Und T := ⟨Opt.None (Opt T)⟩

/-- Constructor FromPointer of und.go.  A Go pointer is modelled as a Lean
Option: a nil pointer is Option.none. -/
def Und.FromPointer {T : Type} [Inhabited T] (v : Option T) : Und T :=
  match v with
  | Option.none => Und.Undefined T
  | Option.some t => Und.Defined t

/-- Method IsDefined of und.go. -/
def Und.IsDefined {T : Type} (u : Und T) : Bool := u.opt.IsSome && u.opt.v.IsSome

/-- Method IsNull of und.go. -/
def Und.IsNull {T : Type} (u : Und T) : Bool := u.opt.IsSome && u.opt.v.IsNone

/-- Method IsUndefined of und.go. -/
def Und.IsUndefined {T : Type} (u : Und T) : Bool := u.opt.IsNone

/-- Method IsZero of und.go. -/
def Und.IsZero {T : Type} (u : Und T) : Bool := u.IsUndefined

/-- Method Get of und.go: the held value when defined, the zero value of T
otherwise. -/
def Und.Get {T : Type} [Inhabited T] (u : Und T) : T :=
  if u.IsDefined then u.opt.v.v else default

/-- Method Map of und.go: applies f to the nested option. -/
def Und.Map {T : Type} (f : Opt (Opt T) → Opt (Opt T)) (u : Und T) : Und T := ⟨f u.opt⟩

/-- Method MarshalJSON of und.go: the null literal for Undefined and Null,
otherwise the marshaled held value. -/
def Und.MarshalJSON {T : Type} (encT : T → Except String JSON) (u : Und T) : Except String JSON :=
  if u.IsUndefined || u.IsNull then Except.ok JSON.null
  else encT u.opt.v.v

/-- Method UnmarshalJSON of und.go in state passing style: the null literal
assigns Null, otherwise the unmarshaler of T runs on a local temporary and
the receiver is assigned Defined only on success; on failure the error is
returned and the receiver keeps its old value. -/
def Und.UnmarshalJSON {T : Type} [Inhabited T] (decT : JSON → Except String T) (data : JSON) (u : Und T) : Und T × Option String :=
  if data.isNull then (Und.Null T, Option.none)
  else
    match decT data with
    | Except.error e => (u, Option.some e)
    | Except.ok t => (Und.Defined t, Option.none)

/-- Element-by-element decode of a JSON array into a list of options,
modelling the standard library behavior of unmarshaling into the slice type
Options of T: each element is decoded by the Option unmarshaler into a fresh
zero element, stopping at the first failing element. -/
def decodeOptList {T : Type} [Inhabited T] (decT : JSON → Except String T) : List JSON → Except String (List (Opt T))
  | [] => Except.ok []
  | d :: rest =>
    match Opt.decode decT d with
    | Except.error e => Except.error e
    | Except.ok o =>
      match decodeOptList decT rest with
      | Except.error e => Except.error e
      | Except.ok os => Except.ok (o :: os)

/-- Standard library unmarshal of raw input into the slice type Options of T:
the null literal yields the nil slice, an array is decoded element by
element, and any other input is a format error. -/
def Options.decode {T : Type} [Inhabited T] (decT : JSON → Except String T) (data : JSON) : Except String (List (Opt T)) :=
  match data with
  | JSON.null => Except.ok []
  | JSON.arr elems => decodeOptList decT elems
  | _ => Except.error "json: cannot unmarshal into Go slice"

/-- Element-by-element marshal of a list of options, modelling the standard
library behavior of marshaling the slice type Options of T: each element is
marshaled by the Option marshaler, stopping at the first failure. -/
def marshalOptList {T : Type} (encT : T → Except String JSON) : List (Opt T) → Except String (List JSON)
  | [] => Except.ok []
  | o :: rest =>
    match Opt.MarshalJSON encT o with
    | Except.error e => Except.error e
    | Except.ok j =>
      match marshalOptList encT rest with
      | Except.error e => Except.error e
      | Except.ok js => Except.ok (j :: js)

/-- Standard library marshal of the slice type Options of T as a JSON array
of per-element tokens. -/
def Options.MarshalJSON {T : Type} (encT : T → Except String JSON) (opts : List (Opt T)) : Except String JSON :=
  match marshalOptList encT opts with
  | Except.error e => Except.error e
  | Except.ok js => Except.ok (JSON.arr js)

/-- Embeds the Elastic type of the elastic package: an Und over the slice of
Options.  The slice-backed Und variant used by one version of the source has
the same observable state algebra as the Und of und.go, so both versions are
modelled on the same state. -/
structure Elastic (T : Type) where
  inner : Und (List (Opt T))

/-- Constructor Null of the elastic package. -/
def Elastic.Null (T : Type) : Elastic T := ⟨Und.Null (List (Opt T))⟩

/-- Constructor Undefined of the elastic package. -/
def Elastic.Undefined (T : Type) : Elastic T := ⟨Und.Undefined (List (Opt T))⟩

/-- Constructor FromOptions of the elastic package: a Defined value holding
the given options. -/
def Elastic.FromOptions {T : Type} (options : List (Opt T)) : Elastic T := ⟨Und.Defined options⟩

/-- Constructor FromValue of methods.go: a one-element Defined sequence. -/
def Elastic.FromValue {T : Type} (t : T) : Elastic T := Elastic.FromOptions [Opt.Some t]

/-- Constructor FromValues of methods.go: every input value becomes a Some
element. -/
def Elastic.FromValues {T : Type} (ts : List T) : Elastic T := Elastic.FromOptions (ts.map Opt.Some)

/-- Method IsDefined of the elastic package. -/
def Elastic.IsDefined {T : Type} (e : Elastic T) : Bool := e.inner.IsDefined

/-- Method IsNull of the elastic package. -/
def Elastic.IsNull {T : Type} (e : Elastic T) : Bool := e.inner.IsNull

/-- Method IsUndefined of the elastic package. -/
def Elastic.IsUndefined {T : Type} (e : Elastic T) : Bool := e.inner.IsUndefined

/-- Method IsZero of methods.go. -/
def Elastic.IsZero {T : Type} (e : Elastic T) : Bool := e.IsUndefined

/-- Method Values of the elastic package: nil unless defined, otherwise one
output element per option, each produced by the Value method of the option
(the stored value, i.e. the zero value of T for a constructed None). -/
def Elastic.Values {T : Type} [Inhabited T] (e : Elastic T) : List T :=
  if !e.IsDefined then []
  else (e.inner.Get).map (fun o => o.Value)

/-- Method MarshalJSON of methods.go: marshals the inner Und of the options
slice, so Undefined and Null emit the null literal and Defined emits the
array form. -/
def Elastic.MarshalJSON {T : Type} (encT : T → Except String JSON) (e : Elastic T) : Except String JSON :=
  Und.MarshalJSON (fun opts => Options.MarshalJSON encT opts) e.inner

/-- The inner pre-map the Map method of the elastic package applies before
calling f.  The reslicing of the source only trims spare capacity, which a
Lean list does not carry, so that branch returns the same list; the guard
structure is kept as in the source. -/
def Elastic.capRecap {T : Type} (o : Opt (Opt (List (Opt T)))) : Opt (Opt (List (Opt T))) :=
  if !o.IsNone then o
  else
    if o.v.IsNone then o
    else Opt.Some (Opt.Some o.v.v)

/-- Method Map of the elastic package: applies the capacity pre-map to the
inner Und, then f to the result. -/
def Elastic.Map {T : Type} (f : Und (List (Opt T)) → Und (List (Opt T))) (e : Elastic T) : Elastic T :=
  ⟨f (Und.Map Elastic.capRecap e.inner)⟩

/-- The shared scalar path of UnmarshalJSON of methods.go: decode the whole
input as a single Option of T; on success the receiver becomes a one-element
Defined sequence, on failure the error of this attempt is returned and the
receiver keeps its old value. -/
def Elastic.unmarshalScalar {T : Type} [Inhabited T] (decT : JSON → Except String T) (data : JSON) (e : Elastic T) : Elastic T × Option String :=
  match Opt.decode decT data with
  | Except.error err => (e, Option.some err)
  | Except.ok t => (Elastic.FromOptions [t], Option.none)

/-- Method UnmarshalJSON of methods.go in state passing style: the null
literal assigns Null; else if the input opens an array, decoding the whole
input as a sequence of options is attempted and assigned on success; on
failure of that attempt, or when the input does not open an array, the
scalar path runs. -/
def Elastic.UnmarshalJSON {T : Type} [Inhabited T] (decT : JSON → Except String T) (data : JSON) (e : Elastic T) : Elastic T × Option String :=
  if data.isNull then (Elastic.Null T, Option.none)
  else
    if data.isArr then
      match Options.decode decT data with
      | Except.ok t => (Elastic.FromOptions t, Option.none)
      | Except.error _ => Elastic.unmarshalScalar decT data e
    else Elastic.unmarshalScalar decT data e

/-- Method UnmarshalXML of methods.go in state passing style.  The element
decode of the surrounding XML decoder is abstracted as the already-resolved
result decoded: a list of newly decoded options, or an error.  When the
receiver holds no elements the result replaces it; otherwise the new
elements are appended through the nested Map chain of the source. -/
def Elastic.UnmarshalXML {T : Type} (decoded : Except String (List (Opt T))) (o : Elastic T) : Elastic T × Option String :=
  match decoded with
  | Except.error e => (o, Option.some e)
  | Except.ok t =>
    if (o.inner.Get).length = 0 then (Elastic.FromOptions t, Option.none)
    else
      (Elastic.Map (fun u => Und.Map (fun o2 => Opt.Map (fun v => Opt.Map (fun vv => vv ++ t) v) o2) u) o, Option.none)

/-- Concrete element codec used by witness theorems: natural numbers encoded
as JSON numbers. -/
def decNat : JSON → Except String Nat
  | JSON.num n => if n < 0 then Except.error "negative" else Except.ok n.toNat
  | _ => Except.error "not a number"

/-- Concrete element encoder used by witness theorems. -/
def encNat (n : Nat) : Except String JSON := Except.ok (JSON.num (Int.ofNat n))

/-- Concrete element encoder modelling a Go pointer element type: the nil
pointer marshals to the null literal. -/
def encOptNat : Option Nat → Except String JSON
  | Option.none => Except.ok JSON.null
  | Option.some n => Except.ok (JSON.num (Int.ofNat n))

/-- Concrete element unmarshaler for the same pointer element type: the null
literal decodes to the nil pointer, so the codec round trips on every
element value. -/
def decOptNat : JSON → Except String (Option Nat)
  | JSON.null => Except.ok Option.none
  | JSON.num n => if n < 0 then Except.error "negative" else Except.ok (Option.some n.toNat)
  | _ => Except.error "not a number"

/-- States that exactly one of the three state predicates of an Und value
holds, naming which one. -/
def exactlyOneState {T : Type} (u : Und T) : Prop :=
  (u.IsUndefined = true ∧ u.IsNull = false ∧ u.IsDefined = false) ∨
  (u.IsUndefined = false ∧ u.IsNull = true ∧ u.IsDefined = false) ∨
  (u.IsUndefined = false ∧ u.IsNull = false ∧ u.IsDefined = true)

/-- Claim C5: every Und value built by the constructors Defined, Null,
Undefined and FromPointer, as well as the zero value, satisfies exactly one
of IsUndefined, IsNull, IsDefined, and IsZero agrees with IsUndefined on
every value. -/
theorem Und.state_trichotomy (T : Type) [Inhabited T] :
    (∀ t : T, exactlyOneState (Und.Defined t)) ∧
    exactlyOneState (Und.Null T) ∧
    exactlyOneState (Und.Undefined T) ∧
    (∀ p : Option T, exactlyOneState (Und.FromPointer p)) ∧
    exactlyOneState (default : Und T) ∧
    (∀ u : Und T, u.IsZero = u.IsUndefined) :=
  ⟨fun _ => Or.inr (Or.inr ⟨rfl, rfl, rfl⟩),
   Or.inr (Or.inl ⟨rfl, rfl, rfl⟩),
   Or.inl ⟨rfl, rfl, rfl⟩,
   fun p =>
     match p with
     | Option.none => Or.inl ⟨rfl, rfl, rfl⟩
     | Option.some _ => Or.inr (Or.inr ⟨rfl, rfl, rfl⟩),
   Or.inl ⟨rfl, rfl, rfl⟩,
   fun _ => rfl⟩

/-- Claim C3: Und UnmarshalJSON yields Null on the null literal, Defined on a
successful element decode, propagates the element decode error otherwise,
and never yields Undefined as a decode outcome. -/
theorem Und.unmarshalJSON_spec {T : Type} [Inhabited T] (decT : JSON → Except String T) (data : JSON) (u : Und T) :
    (data.isNull = true → Und.UnmarshalJSON decT data u = (Und.Null T, Option.none)) ∧
    (data.isNull = false → ∀ t, decT data = Except.ok t → Und.UnmarshalJSON decT data u = (Und.Defined t, Option.none)) ∧
    (data.isNull = false → ∀ msg, decT data = Except.error msg → Und.UnmarshalJSON decT data u = (u, Option.some msg)) ∧
    (∀ r, Und.UnmarshalJSON decT data u = (r, Option.none) → r.IsUndefined = false) := by
  refine ⟨fun h => by simp [Und.UnmarshalJSON, h], fun h t ht => by simp [Und.UnmarshalJSON, h, ht],
    fun h msg hmsg => by simp [Und.UnmarshalJSON, h, hmsg], fun r hr => ?_⟩
  by_cases h : data.isNull = true
  · have heq : Und.UnmarshalJSON decT data u = (Und.Null T, Option.none) := by
      simp [Und.UnmarshalJSON, h]
    rw [heq] at hr
    injection hr with h1 h2
    subst h1
    rfl
  · cases hd : decT data with
    | error msg =>
      have heq : Und.UnmarshalJSON decT data u = (u, Option.some msg) := by
        simp [Und.UnmarshalJSON, h, hd]
      rw [heq] at hr
      injection hr with h1 h2
      cases h2
    | ok t =>
      have heq : Und.UnmarshalJSON decT data u = (Und.Defined t, Option.none) := by
        simp [Und.UnmarshalJSON, h, hd]
      rw [heq] at hr
      injection hr with h1 h2
      subst h1
      rfl

/-- Witness for claim C3 at a concrete successful decode. -/
theorem Und.unmarshalJSON_spec_witness :
    Und.UnmarshalJSON decNat (JSON.num 5) (Und.Undefined Nat) = (Und.Defined 5, Option.none) :=
  (Und.unmarshalJSON_spec decNat (JSON.num 5) (Und.Undefined Nat)).2.1 rfl 5 rfl

/-- Claim C9: both JSON unmarshalers are atomic on failure: whenever they
return an error, the receiver value is unchanged. -/
theorem unmarshalJSON_atomic_on_failure {T : Type} [Inhabited T] (decT : JSON → Except String T) (data : JSON) :
    (∀ (u : Und T) (msg : String), (Und.UnmarshalJSON decT data u).2 = Option.some msg → (Und.UnmarshalJSON decT data u).1 = u) ∧
    (∀ (e : Elastic T) (msg : String), (Elastic.UnmarshalJSON decT data e).2 = Option.some msg → (Elastic.UnmarshalJSON decT data e).1 = e) := by
  constructor
  · intro u msg hsnd
    by_cases h : data.isNull = true
    · simp [Und.UnmarshalJSON, h] at hsnd
    · cases hd : decT data with
      | error m => simp [Und.UnmarshalJSON, h, hd]
      | ok t => simp [Und.UnmarshalJSON, h, hd] at hsnd
  · intro e msg hsnd
    by_cases h : data.isNull = true
    · simp [Elastic.UnmarshalJSON, h] at hsnd
    · by_cases ha : data.isArr = true
      · cases ho : Options.decode decT data with
        | ok t => simp [Elastic.UnmarshalJSON, h, ha, ho] at hsnd
        | error m =>
          cases hs : Opt.decode decT data with
          | error m2 => simp [Elastic.UnmarshalJSON, Elastic.unmarshalScalar, h, ha, ho, hs]
          | ok t => simp [Elastic.UnmarshalJSON, Elastic.unmarshalScalar, h, ha, ho, hs] at hsnd
      · cases hs : Opt.decode decT data with
        | error m2 => simp [Elastic.UnmarshalJSON, Elastic.unmarshalScalar, h, ha, hs]
        | ok t => simp [Elastic.UnmarshalJSON, Elastic.unmarshalScalar, h, ha, hs] at hsnd

/-- Witness for claim C9 at a concrete failing input. -/
theorem unmarshalJSON_atomic_on_failure_witness :
    (Und.UnmarshalJSON decNat (JSON.str "x") (Und.Defined 7)).1 = Und.Defined 7 :=
  (unmarshalJSON_atomic_on_failure decNat (JSON.str "x")).1 (Und.Defined 7) "not a number" rfl

/-- Claim C2: the equality of the presence primitive resolves in order: both
None means equal; exactly one None means not equal; otherwise a custom Equal
method on T, then one on a pointer to T, decides; otherwise the builtin
structural comparison decides, and its absence (an uncomparable T) is a
panic, modelled as the Option.none result. -/
theorem Opt.Equal_resolution {T : Type} (eqT eqPtrT structEq : Option (T → T → Bool)) (o other : Opt T) :
    (o.some = false → other.some = false → Opt.Equal eqT eqPtrT structEq o other = Option.some true) ∧
    (o.some ≠ other.some → Opt.Equal eqT eqPtrT structEq o other = Option.some false) ∧
    (o.some = true → other.some = true → ∀ f, eqT = Option.some f →
      Opt.Equal eqT eqPtrT structEq o other = Option.some (f o.v other.v)) ∧
    (o.some = true → other.some = true → eqT = Option.none → ∀ f, eqPtrT = Option.some f →
      Opt.Equal eqT eqPtrT structEq o other = Option.some (f o.v other.v)) ∧
    (o.some = true → other.some = true → eqT = Option.none → eqPtrT = Option.none → ∀ g, structEq = Option.some g →
      Opt.Equal eqT eqPtrT structEq o other = Option.some (g o.v other.v)) ∧
    (o.some = true → other.some = true → eqT = Option.none → eqPtrT = Option.none → structEq = Option.none →
      Opt.Equal eqT eqPtrT structEq o other = Option.none) := by
  refine ⟨fun h1 h2 => by simp [Opt.Equal, h1, h2], fun hne => ?_,
    fun h1 h2 f hf => by simp [Opt.Equal, equal, h1, h2, hf],
    fun h1 h2 hn f hf => by simp [Opt.Equal, equal, h1, h2, hn, hf],
    fun h1 h2 hn hpn g hg => by simp [Opt.Equal, equal, h1, h2, hn, hpn, hg],
    fun h1 h2 hn hpn hsn => by simp [Opt.Equal, equal, h1, h2, hn, hpn, hsn]⟩
  cases hb1 : o.some <;> cases hb2 : other.some
  · exact absurd (hb1.trans hb2.symm) hne
  · simp [Opt.Equal, hb1, hb2]
  · simp [Opt.Equal, hb1, hb2]
  · exact absurd (hb1.trans hb2.symm) hne

/-- Witness for claim C2: a custom override that compares modulo 30 makes
two structurally different values compare equal. -/
theorem Opt.Equal_resolution_witness :
    Opt.Equal (Option.some (fun a b : Nat => a % 30 == b % 30)) Option.none Option.none (Opt.Some 1) (Opt.Some 31) = Option.some true :=
  (Opt.Equal_resolution (Option.some (fun a b : Nat => a % 30 == b % 30)) Option.none Option.none (Opt.Some 1) (Opt.Some 31)).2.2.1 rfl rfl _ rfl

/-- Shared helper: case analysis of the Und marshaler used both directly and
through Elastic. -/
theorem und_marshal_null_cases {T : Type} [Inhabited T] (encT : T → Except String JSON) (u : Und T) :
    ((u.IsUndefined = true ∨ u.IsNull = true) → Und.MarshalJSON encT u = Except.ok JSON.null) ∧
    (u.IsDefined = true → Und.MarshalJSON encT u = encT u.Get) := by
  constructor
  · intro h
    rcases h with h | h
    · simp [Und.MarshalJSON, h]
    · simp [Und.MarshalJSON, h]
  · intro h
    have h2 : u.opt.some = true ∧ u.opt.v.some = true := by
      have hh := h
      unfold Und.IsDefined Opt.IsSome at hh
      rw [Bool.and_eq_true] at hh
      exact hh
    unfold Und.MarshalJSON Und.Get
    simp [Und.IsUndefined, Und.IsNull, Opt.IsNone, Opt.IsSome, h2.1, h2.2, h]

/-- Claim C6: the Option marshaler emits the null literal for None and the
element encoding for Some; the Und marshaler emits the null literal for both
Undefined and Null and the held value encoding for Defined; the Elastic
marshaler emits the null literal for Undefined and Null and the array of
per-element tokens for Defined. -/
theorem marshalJSON_null_emission {T : Type} [Inhabited T] (encT : T → Except String JSON) :
    (∀ o : Opt T, (o.some = false → Opt.MarshalJSON encT o = Except.ok JSON.null) ∧
      (o.some = true → Opt.MarshalJSON encT o = encT o.v)) ∧
    (∀ u : Und T, ((u.IsUndefined = true ∨ u.IsNull = true) → Und.MarshalJSON encT u = Except.ok JSON.null) ∧
      (u.IsDefined = true → Und.MarshalJSON encT u = encT u.Get)) ∧
    (∀ e : Elastic T, ((e.IsUndefined = true ∨ e.IsNull = true) → Elastic.MarshalJSON encT e = Except.ok JSON.null) ∧
      (e.IsDefined = true → Elastic.MarshalJSON encT e = Options.MarshalJSON encT e.inner.Get)) := by
  refine ⟨fun o => ⟨fun h => by simp [Opt.MarshalJSON, h], fun h => by simp [Opt.MarshalJSON, h]⟩,
    fun u => und_marshal_null_cases encT u, fun e => ⟨fun h => ?_, fun h => ?_⟩⟩
  · exact (und_marshal_null_cases (fun opts => Options.MarshalJSON encT opts) e.inner).1 h
  · exact (und_marshal_null_cases (fun opts => Options.MarshalJSON encT opts) e.inner).2 h

/-- Witness for claim C6 at concrete values. -/
theorem marshalJSON_null_emission_witness :
    Opt.MarshalJSON encNat (Opt.Some 5) = Except.ok (JSON.num 5) ∧
    Und.MarshalJSON encNat (Und.Null Nat) = Except.ok JSON.null ∧
    Elastic.MarshalJSON encNat (Elastic.FromValue 5) = Options.MarshalJSON encNat [Opt.Some 5] :=
  ⟨((marshalJSON_null_emission encNat).1 (Opt.Some 5)).2 rfl,
   ((marshalJSON_null_emission encNat).2.1 (Und.Null Nat)).1 (Or.inr rfl),
   ((marshalJSON_null_emission encNat).2.2 (Elastic.FromValue 5)).2 rfl⟩

/-- Claim C1: the Elastic JSON unmarshaler resolves the scalar versus array
ambiguity in order: the null literal yields Null; an array-opening input
first attempts the whole-input sequence decode and keeps it on success; if
that attempt fails, or the input does not open an array, the whole input is
decoded as a single option, yielding a one-element Defined sequence on
success; if both interpretations fail, the returned error is the one of the
second, scalar attempt. -/
theorem Elastic.unmarshalJSON_resolution {T : Type} [Inhabited T] (decT : JSON → Except String T) (data : JSON) (e : Elastic T) :
    (data.isNull = true → Elastic.UnmarshalJSON decT data e = (Elastic.Null T, Option.none)) ∧
    (data.isNull = false → data.isArr = true → ∀ t, Options.decode decT data = Except.ok t →
      Elastic.UnmarshalJSON decT data e = (Elastic.FromOptions t, Option.none)) ∧
    (data.isNull = false → (data.isArr = false ∨ ∃ msg, Options.decode decT data = Except.error msg) →
      (∀ t, Opt.decode decT data = Except.ok t → Elastic.UnmarshalJSON decT data e = (Elastic.FromOptions [t], Option.none)) ∧
      (∀ msg2, Opt.decode decT data = Except.error msg2 → Elastic.UnmarshalJSON decT data e = (e, Option.some msg2))) := by
  refine ⟨fun h => by simp [Elastic.UnmarshalJSON, h],
    fun h ha t ht => by simp [Elastic.UnmarshalJSON, h, ha, ht],
    fun h hfall => ⟨fun t ht => ?_, fun msg2 hmsg => ?_⟩⟩
  · rcases hfall with ha | ⟨msg, hm⟩
    · simp [Elastic.UnmarshalJSON, Elastic.unmarshalScalar, h, ha, ht]
    · by_cases ha : data.isArr = true
      · simp [Elastic.UnmarshalJSON, Elastic.unmarshalScalar, h, ha, hm, ht]
      · simp [Elastic.UnmarshalJSON, Elastic.unmarshalScalar, h, ha, ht]
  · rcases hfall with ha | ⟨msg, hm⟩
    · simp [Elastic.UnmarshalJSON, Elastic.unmarshalScalar, h, ha, hmsg]
    · by_cases ha : data.isArr = true
      · simp [Elastic.UnmarshalJSON, Elastic.unmarshalScalar, h, ha, hm, hmsg]
      · simp [Elastic.UnmarshalJSON, Elastic.unmarshalScalar, h, ha, hmsg]

/-- Witness for claim C1: an array input whose sequence decode fails falls
back to the scalar attempt, and the error returned is the one of that
second attempt. -/
theorem Elastic.unmarshalJSON_resolution_witness :
    Elastic.UnmarshalJSON decNat (JSON.arr [JSON.str "x"]) (Elastic.Undefined Nat) = (Elastic.Undefined Nat, Option.some "not a number") :=
  ((Elastic.unmarshalJSON_resolution decNat (JSON.arr [JSON.str "x"]) (Elastic.Undefined Nat)).2.2 rfl
    (Or.inr ⟨"not a number", rfl⟩)).2 "not a number" rfl

/-- Claim C7: the Elastic XML unmarshaler appends the newly decoded elements
to the backing sequence when the receiver already holds elements, and
replaces the receiver with a Defined value holding exactly the new elements
when it holds none. -/
theorem Elastic.unmarshalXML_append_spec {T : Type} (t : List (Opt T)) (o : Elastic T) :
    ((o.inner.Get).length = 0 → Elastic.UnmarshalXML (Except.ok t) o = (Elastic.FromOptions t, Option.none)) ∧
    ((o.inner.Get).length ≠ 0 → Elastic.UnmarshalXML (Except.ok t) o = (Elastic.FromOptions ((o.inner.Get) ++ t), Option.none)) := by
  constructor
  · intro h
    simp [Elastic.UnmarshalXML, h]
  · intro h
    obtain ⟨⟨⟨b1, ⟨b2, l⟩⟩⟩⟩ := o
    cases b1 <;> cases b2
    · exact absurd rfl h
    · exact absurd rfl h
    · exact absurd rfl h
    · simp only [Elastic.UnmarshalXML, if_neg h]
      rfl

/-- Witness for claim C7: a receiver holding one element appends the two new
elements. -/
theorem Elastic.unmarshalXML_append_spec_witness :
    Elastic.UnmarshalXML (Except.ok [Opt.Some 2, Opt.None Nat]) (Elastic.FromOptions [Opt.Some 1]) =
      (Elastic.FromOptions [Opt.Some 1, Opt.Some 2, Opt.None Nat], Option.none) :=
  (Elastic.unmarshalXML_append_spec [Opt.Some 2, Opt.None Nat] (Elastic.FromOptions [Opt.Some 1])).2 (by decide)

/-- Claim C10: on a Defined Elastic the Values method returns one output
element per option, the held value for a Some element and the zero value of
T for a None element, and it returns nil for Null and Undefined.  The
hypothesis records the invariant of every constructed option: a None stores
the zero value. -/
theorem Elastic.Values_spec {T : Type} [Inhabited T] (opts : List (Opt T))
    (hwf : ∀ o ∈ opts, o.some = false → o.v = (default : T)) :
    ((Elastic.Values (Elastic.FromOptions opts)).length = opts.length ∧
      Elastic.Values (Elastic.FromOptions opts) = opts.map (fun o => if o.some = true then o.v else default)) ∧
    Elastic.Values (Elastic.Null T) = [] ∧
    Elastic.Values (Elastic.Undefined T) = [] := by
  have hvals : Elastic.Values (Elastic.FromOptions opts) = opts.map (fun o => o.v) := by
    simp [Elastic.Values, Elastic.IsDefined, Elastic.FromOptions, Und.IsDefined, Und.Get,
      Opt.IsSome, Opt.Some, Und.Defined, Opt.Value]
  refine ⟨⟨?_, ?_⟩, rfl, rfl⟩
  · rw [hvals, List.length_map]
  · rw [hvals]
    apply List.map_congr_left
    intro o ho
    by_cases hs : o.some = true
    · simp [hs]
    · have hf : o.some = false := by
        cases hb : o.some
        · rfl
        · exact absurd hb hs
      simp [hf, hwf o ho hf]

/-- Witness for claim C10 at a concrete two-element sequence. -/
theorem Elastic.Values_spec_witness :
    Elastic.Values (Elastic.FromOptions [Opt.Some 5, Opt.None Nat]) = [5, 0] :=
  (Elastic.Values_spec [Opt.Some 5, Opt.None Nat] (by decide)).1.2

/-- Claim C4 as amended: for element values whose encodings round trip and
are not the null literal, the Elastic built by FromValues from three values
marshals to the three-element array of their encodings (Defined always
encodes in array form), and unmarshaling that output from any starting
receiver restores the original three-element Defined Elastic.  The
not-null-literal hypotheses are forced by the counterexample below: an
element whose encoding is the null literal decodes back as None, not Some. -/
theorem Elastic.roundtrip_fromValues {T : Type} [Inhabited T]
    (encT : T → Except String JSON) (decT : JSON → Except String T)
    (a b c : T) (ja jb jc : JSON)
    (hea : encT a = Except.ok ja) (heb : encT b = Except.ok jb) (hec : encT c = Except.ok jc)
    (hna : ja.isNull = false) (hnb : jb.isNull = false) (hnc : jc.isNull = false)
    (hda : decT ja = Except.ok a) (hdb : decT jb = Except.ok b) (hdc : decT jc = Except.ok c)
    (e0 : Elastic T) :
    Elastic.MarshalJSON encT (Elastic.FromValues [a, b, c]) = Except.ok (JSON.arr [ja, jb, jc]) ∧
    Elastic.UnmarshalJSON decT (JSON.arr [ja, jb, jc]) e0 = (Elastic.FromValues [a, b, c], Option.none) := by
  constructor
  · simp [Elastic.MarshalJSON, Elastic.FromValues, Elastic.FromOptions, Und.MarshalJSON,
      Und.IsUndefined, Und.IsNull, Und.Defined, Opt.IsSome, Opt.IsNone, Opt.Some,
      Options.MarshalJSON, marshalOptList, Opt.MarshalJSON, hea, heb, hec]
  · have h0 : (JSON.arr [ja, jb, jc]).isNull = false := rfl
    have h1 : (JSON.arr [ja, jb, jc]).isArr = true := rfl
    simp [Elastic.UnmarshalJSON, Options.decode, decodeOptList,
      Opt.decode, h0, h1, hna, hnb, hnc, hda, hdb, hdc, Elastic.FromValues, Elastic.FromOptions, Opt.Some]

/-- Witness for claim C4 at three concrete numbers. -/
theorem Elastic.roundtrip_fromValues_witness :
    Elastic.MarshalJSON encNat (Elastic.FromValues [1, 2, 3]) = Except.ok (JSON.arr [JSON.num 1, JSON.num 2, JSON.num 3]) ∧
    Elastic.UnmarshalJSON decNat (JSON.arr [JSON.num 1, JSON.num 2, JSON.num 3]) (Elastic.Undefined Nat) = (Elastic.FromValues [1, 2, 3], Option.none) :=
  Elastic.roundtrip_fromValues encNat decNat 1 2 3 (JSON.num 1) (JSON.num 2) (JSON.num 3)
    rfl rfl rfl rfl rfl rfl rfl rfl rfl (Elastic.Undefined Nat)

/-- Counterexample to claim C4 as frozen: the element value nil pointer is
JSON-encodable and its codec round trips (nil encodes to the null literal
and the null literal decodes to nil), yet the Elastic round trip fails on
the list [nil, 1, 2]: marshaling still emits one array element per input
value, but unmarshaling maps the null element to None instead of Some nil,
so the decoded value differs from the original both structurally and under
the Option equality of the source, which distinguishes Some from None. -/
theorem Elastic.roundtrip_fromValues_counterexample :
    encOptNat Option.none = Except.ok JSON.null ∧
    decOptNat JSON.null = Except.ok Option.none ∧
    Elastic.MarshalJSON encOptNat (Elastic.FromValues [Option.none, Option.some 1, Option.some 2]) =
      Except.ok (JSON.arr [JSON.null, JSON.num 1, JSON.num 2]) ∧
    Elastic.UnmarshalJSON decOptNat (JSON.arr [JSON.null, JSON.num 1, JSON.num 2]) (Elastic.Undefined (Option Nat)) =
      (Elastic.FromOptions [(⟨false, Option.none⟩ : Opt (Option Nat)), Opt.Some (Option.some 1), Opt.Some (Option.some 2)], Option.none) ∧
    Elastic.FromOptions [(⟨false, Option.none⟩ : Opt (Option Nat)), Opt.Some (Option.some 1), Opt.Some (Option.some 2)] ≠
      Elastic.FromValues [Option.none, Option.some 1, Option.some 2] ∧
    Opt.Equal Option.none Option.none (Option.some (fun a b : Option Nat => a == b))
      (⟨false, Option.none⟩ : Opt (Option Nat)) (Opt.Some Option.none) = Option.some false := by
  refine ⟨rfl, rfl, rfl, rfl, ?_, rfl⟩
  intro h
  have hb := congrArg (fun e : Elastic (Option Nat) => ((e.inner.opt.v.v).headI).some) h
  exact Bool.noConfusion hb
